import Mathlib

/-!
Shallow embedding of the submission-lateness and weekly-summary-trigger
logic of the speedy-status backend
(src/backend/app/services/summary_service.py and
src/backend/app/routers/submission.py), together with proofs of the
specified properties.

Timestamps are modelled in seconds. A Python `datetime` is a wall-clock
value together with an optional UTC offset (`tzinfo`); `none` models a
naive datetime. All other machine types are modelled by `String`, `Int`,
`Nat` and `Bool`.
-/

namespace SpeedyStatus

/-- Python `datetime`: a naive wall-clock reading in seconds together with
an optional UTC offset in seconds (`none` models a naive datetime with no
`tzinfo`). -/
structure PyDateTime where
  wall : Int
  tzOffset : Option Int
deriving DecidableEq, Repr

/-- The instant (seconds since epoch, UTC) denoted by a datetime; Python
compares aware datetimes by this value. A naive datetime has no offset to
subtract, matching the interpret-as-UTC policy. -/
def instant (d : PyDateTime) : Int := d.wall - d.tzOffset.getD 0

/-- Python `d + timedelta(seconds=n)`: shifts the wall clock, keeps the
offset. -/
def addSeconds (d : PyDateTime) (n : Int) : PyDateTime :=
  { d with wall := d.wall + n }

/-- `scheduled_prompt.scheduledFor.replace(tzinfo=timezone.utc) if
scheduled_prompt.scheduledFor.tzinfo is None else
scheduled_prompt.scheduledFor` (submission.py line 134). -/
def normalizeToUTC (d : PyDateTime) : PyDateTime :=
  match d.tzOffset with
  | none => { d with tzOffset := some 0 }
  | some _ => d

/-- `is_late = now > (prompt_time + timedelta(hours=24))` after the naive
normalization of the prompt time (submission.py lines 133-135); `now` is
`datetime.now(timezone.utc)`, always aware. -/
def is_late (now prompt : PyDateTime) : Bool :=
  decide (instant now > instant (addSeconds (normalizeToUTC prompt) 86400))

/-- One active team member as consumed by the trigger evaluator:
identifier and email. -/
structure Member where
  id : String
  email : String
deriving DecidableEq, Repr

/-- One submission record (prisma `Submission`): identifier, authoring
user, team, content, submission timestamp, lateness flag, week-start-date
and last-update timestamp. Timestamps are instants in seconds. -/
structure Submission where
  id : String
  userId : String
  teamId : String
  content : String
  submittedAt : Int
  isLate : Bool
  weekStartDate : Int
  updatedAt : Int
deriving DecidableEq, Repr

/-- Python `min(submissions, key=lambda s: s['submittedAt'])` on a
non-empty list, written with an accumulator: the running minimum is
replaced only when a strictly smaller key appears, so ties keep the
earlier element, as in Python. -/
def minBySubmittedAt : Submission → List Submission → Submission
  | acc, [] => acc
  | acc, x :: xs => minBySubmittedAt (if x.submittedAt < acc.submittedAt then x else acc) xs

/-- Python `min` over a possibly-empty list: `none` models the
`ValueError` that `min([])` raises. -/
def pyMinBySubmittedAt : List Submission → Option Submission
  | [] => none
  | x :: xs => some (minBySubmittedAt x xs)

/-- `SummaryService.should_generate_summary` (summary_service.py lines
10-24), with the clock `datetime.now(timezone.utc)` made an explicit
parameter `now` (an instant in seconds): empty-roster/empty-data guard,
then the count comparison, then the 24-hour timeout on the oldest
submission. -/
def should_generate_summary (now : Int) (members : List Member)
    (submissions : List Submission) : Bool :=
  if members.isEmpty || submissions.isEmpty then false
  else if submissions.length ≥ members.length then true
  else
    match submissions with
    | [] => false
    | s :: rest => decide (now > (minBySubmittedAt s rest).submittedAt + 86400)

/-- `should_generate_summary` with the partiality of Python `min` kept
visible: `none` models an uncaught `ValueError` from `min([])`. -/
def should_generate_summary_run (now : Int) (members : List Member)
    (submissions : List Submission) : Option Bool :=
  if members.isEmpty || submissions.isEmpty then some false
  else if submissions.length ≥ members.length then some true
  else
    match pyMinBySubmittedAt submissions with
    | none => none
    | some oldest => some (decide (now > oldest.submittedAt + 86400))

/-- The trigger reason of spec §4.2, as computed by
`check_and_generate_if_needed` (summary_service.py lines 95-101): when a
summary is generated the reason is `ALL_SUBMITTED` iff
`len(submissions) >= len(members)`, else `TIMEOUT`; when none is
generated the reason is `NONE`. -/
inductive TriggerReason
  | ALL_SUBMITTED
  | TIMEOUT
  | NONE
deriving DecidableEq, Repr

/-- The repository's `TriggerType` enum (app/models/trigger_type.py). -/
inductive TriggerType
  | ALL_SUBMITTED
  | TIMEOUT
deriving DecidableEq, Repr

/-- Trigger reason computed by `check_and_generate_if_needed`
(summary_service.py lines 93-103) as a function of the clock, the member
roster and the week's submissions. -/
def trigger_reason (now : Int) (members : List Member)
    (submissions : List Submission) : TriggerReason :=
  if should_generate_summary now members submissions then
    if submissions.length ≥ members.length then .ALL_SUBMITTED else .TIMEOUT
  else .NONE

/-- Earliest `submittedAt` of a submission list (0 on the empty list,
which the evaluator never reaches). -/
def oldestAt : List Submission → Int
  | [] => 0
  | s :: rest => rest.foldl (fun m x => min m x.submittedAt) s.submittedAt

/-- Number of distinct submitting members of a submission list. -/
def distinctSubmitters (submissions : List Submission) : Nat :=
  (submissions.map (·.userId)).dedup.length

/-- One `WeeklySummary` record: identifier, team identifier,
week-start-date, generated text, trigger type and last-update
timestamp. -/
structure WeeklySummary where
  id : Nat
  teamId : String
  weekStartDate : Int
  summaryText : String
  triggerType : TriggerType
  updatedAt : Int
deriving DecidableEq, Repr

/-- The `where` filter of `prisma.weeklysummary.find_first` in
`generate_summary` (summary_service.py lines 50-55): same team and same
week-start-date. -/
def pairMatches (teamId : String) (wsd : Int) (w : WeeklySummary) : Bool :=
  w.teamId == teamId && w.weekStartDate == wsd

/-- Number of stored summaries for a given (team, week-start-date)
pair. -/
def pairCount (store : List WeeklySummary) (teamId : String) (wsd : Int) : Nat :=
  (store.filter (pairMatches teamId wsd)).length

/-- State invariant of spec §3: at most one `WeeklySummary` per
(team, week-start-date) pair. -/
def atMostOnePerPair (store : List WeeklySummary) : Prop :=
  ∀ t w, pairCount store t w ≤ 1

/-- The `data` dict of `prisma.weeklysummary.update` in `generate_summary`
(summary_service.py lines 59-66): new text, new trigger type, new
last-update timestamp; everything else untouched. -/
def updateSummaryFields (text : String) (trigger : TriggerType) (now : Int)
    (w : WeeklySummary) : WeeklySummary :=
  { w with summaryText := text, triggerType := trigger, updatedAt := now }

/-- `SummaryService.generate_summary` (summary_service.py lines 27-78)
over an explicit store. The team lookup becomes membership of `teamId` in
`teams`; the AI call is external (spec §6), so the generated text arrives
as the parameter `text`; `freshId` is the identifier the database would
assign to a newly created row; `now` is the clock. The two `ValueError`
raises become `Except.error`. -/
def generate_summary (teams : List String) (store : List WeeklySummary)
    (teamId : String) (submissions : List Submission) (text : String)
    (trigger : TriggerType) (now : Int) (freshId : Nat) :
    Except String (List WeeklySummary) :=
  if teams.contains teamId then
    match submissions with
    | [] => .error "No submissions provided"
    | s0 :: _ =>
      match store.find? (pairMatches teamId s0.weekStartDate) with
      | some ex =>
        .ok (store.map fun w =>
          if w.id == ex.id then updateSummaryFields text trigger now w else w)
      | none =>
        .ok (store ++ [⟨freshId, teamId, s0.weekStartDate, text, trigger, now⟩])
  else .error "Team not found"

/-- `update_submission` (submission.py lines 171-239) over an explicit
store: look the submission up by id, reject a missing submission or a
requester who does not own it, then update only `content` and
`updatedAt`. -/
def update_submission (store : List Submission) (subId : String)
    (requesterId : String) (content : String) (now : Int) :
    Except String (List Submission) :=
  match store.find? (fun s => s.id == subId) with
  | none => .error "Submission not found"
  | some sub =>
    if sub.userId == requesterId then
      .ok (store.map fun s =>
        if s.id == subId then { s with content := content, updatedAt := now } else s)
    else .error "You can only edit your own submissions"

/-- Calendar day index of an instant (days since the epoch,
floor division). -/
def dayOf (t : Int) : Int := t.fdiv 86400

/-- Python weekday convention (Monday = 0) of a day index: the epoch day
1970-01-01 was a Thursday (= 3). -/
def weekdayOfDay (d : Int) : Int := (d + 3) % 7

/-- `datetime.combine(prompt_time.date(), datetime.min.time())
.replace(tzinfo=timezone.utc)` (submission.py line 145): midnight UTC of
the wall-clock calendar date of the normalized prompt time. -/
def routerWeekStartDate (prompt : PyDateTime) : PyDateTime :=
  ⟨86400 * dayOf (normalizeToUTC prompt).wall, some 0⟩

/-- `datetime.now(timezone.utc).replace(hour=0, minute=0, second=0,
microsecond=0)` (summary_service.py line 84): midnight UTC of the current
UTC date; `now` is the aware-UTC clock reading. -/
def serviceWeekStart (now : PyDateTime) : PyDateTime :=
  ⟨86400 * dayOf now.wall, some 0⟩

/-- Modelled from the spec (§3, glossary): the week-start-date of an
instant `t` is the Monday, in the team's configured timezone (offset `tz`
seconds), of the week `t` falls in — returned as the instant of that local
midnight. This definition follows the spec's words, for comparison with
`routerWeekStartDate` and `serviceWeekStart`, which are the code's. -/
def specWeekStartMonday (tz : Int) (t : Int) : Int :=
  86400 * (dayOf (t + tz) - weekdayOfDay (dayOf (t + tz))) - tz

/-- Minimum of a list of integers (0 on the empty list), matching the
shape of `oldestAt` on the projected `submittedAt` values. -/
def intListMin : List Int → Int
  | [] => 0
  | x :: xs => xs.foldl min x

/-- Concrete three-member roster for witnesses. -/
def rosterA : List Member := [⟨"m1", "m1@x"⟩, ⟨"m2", "m2@x"⟩, ⟨"m3", "m3@x"⟩]

/-- Three submissions from three distinct members, arbitrary
timestamps. -/
def subsA : List Submission :=
  [⟨"s1", "m1", "t", "a", 5, false, 0, 0⟩,
   ⟨"s2", "m2", "t", "b", 900, false, 0, 0⟩,
   ⟨"s3", "m3", "t", "c", 77, false, 0, 0⟩]

/-- Three submissions all authored by the same member `m1`, all recent
relative to a clock of 3600. -/
def subsB : List Submission :=
  [⟨"s1", "m1", "t", "a", 0, false, 0, 0⟩,
   ⟨"s2", "m1", "t", "b", 50, false, 0, 0⟩,
   ⟨"s3", "m1", "t", "c", 100, false, 0, 0⟩]

/-- Two submissions among a three-member roster whose earliest entry is
25 hours old at a clock of 90000. -/
def subsB2 : List Submission :=
  [⟨"s1", "m1", "t", "a", 0, false, 0, 0⟩,
   ⟨"s2", "m2", "t", "b", 3600, false, 0, 0⟩]

/-- Concrete two-member roster. -/
def rosterC : List Member := [⟨"m1", "m1@x"⟩, ⟨"m2", "m2@x"⟩]

/-- A single submission at time 0. -/
def subsC : List Submission := [⟨"s1", "m1", "t", "a", 0, false, 0, 0⟩]

/-- A stored submission owned by user `u`, used by the update-frame
witness. -/
def subU : Submission := ⟨"s1", "u", "t", "old", 5, true, 7, 0⟩

/-- The submission whose week the C7 witness generates a summary for. -/
def subW : Submission := ⟨"s", "u", "t1", "c", 0, false, 0, 0⟩

/-! ## Helper lemmas -/

theorem instant_addSeconds (d : PyDateTime) (n : Int) :
    instant (addSeconds d n) = instant d + n := by
  cases d with
  | mk wall tz =>
    cases tz with
    | none => simp [instant, addSeconds, Option.getD]
    | some o =>
      simp [instant, addSeconds, Option.getD]
      omega

theorem instant_normalizeToUTC (d : PyDateTime) :
    instant (normalizeToUTC d) = instant d := by
  cases d with
  | mk wall tz => cases tz <;> simp [instant, normalizeToUTC, Option.getD]

theorem is_late_eq (now prompt : PyDateTime) :
    is_late now prompt = decide (instant now > instant prompt + 86400) := by
  simp [is_late, instant_addSeconds, instant_normalizeToUTC]

theorem minBySubmittedAt_submittedAt (xs : List Submission) (acc : Submission) :
    (minBySubmittedAt acc xs).submittedAt =
      xs.foldl (fun m x => min m x.submittedAt) acc.submittedAt := by
  induction xs generalizing acc with
  | nil => rfl
  | cons x xs ih =>
    rw [minBySubmittedAt, List.foldl_cons, ih]
    congr 1
    split <;> omega

theorem oldestAt_eq_intListMin (l : List Submission) :
    oldestAt l = intListMin (l.map (·.submittedAt)) := by
  cases l with
  | nil => rfl
  | cons s rest => simp [oldestAt, intListMin, List.foldl_map]

theorem should_generate_summary_eq (now : Int) (members : List Member)
    (subs : List Submission) :
    should_generate_summary now members subs =
      if members.length = 0 ∨ subs.length = 0 then false
      else if subs.length ≥ members.length then true
      else decide (now > oldestAt subs + 86400) := by
  cases members with
  | nil => simp [should_generate_summary]
  | cons m ms =>
    cases subs with
    | nil => simp [should_generate_summary]
    | cons s rest =>
      simp only [should_generate_summary, List.isEmpty_cons, Bool.false_or,
        Bool.or_self, if_neg, List.length_cons, oldestAt,
        minBySubmittedAt_submittedAt]
      simp [oldestAt, minBySubmittedAt_submittedAt]

theorem mem_of_length_le_one {α : Type} {l : List α} {a b : α}
    (h : l.length ≤ 1) (ha : a ∈ l) (hb : b ∈ l) : a = b := by
  cases l with
  | nil => cases ha
  | cons x xs =>
    cases xs with
    | nil =>
      rw [List.mem_singleton] at ha hb
      rw [ha, hb]
    | cons y ys => simp at h

/-! ## Claim theorems -/

/-- C3: the lateness classification computed at submission creation is
true iff the submission instant strictly exceeds the prompt instant plus
24 hours; at exactly 24 hours it is not late, and one second past 24
hours it is late. -/
theorem is_late_strict_boundary :
    ∀ now prompt : PyDateTime,
      (is_late now prompt = true ↔ instant now > instant prompt + 86400) ∧
      (∀ P : Int, is_late ⟨P + 86400, some 0⟩ ⟨P, some 0⟩ = false ∧
        is_late ⟨P + 86400 + 1, some 0⟩ ⟨P, some 0⟩ = true) := by
  intro now prompt
  refine ⟨by rw [is_late_eq]; exact decide_eq_true_iff, fun P => ⟨?_, ?_⟩⟩
  · rw [is_late_eq]
    simp [instant]
  · rw [is_late_eq]
    simp [instant]

/-- C4: with an empty member roster or an empty submission list the
evaluator answers false and no trigger reason fires. -/
theorem empty_inputs_no_trigger :
    ∀ (now : Int) (members : List Member) (subs : List Submission),
      should_generate_summary now [] subs = false ∧
      should_generate_summary now members [] = false ∧
      trigger_reason now [] subs = .NONE ∧
      trigger_reason now members [] = .NONE := by
  intro now members subs
  have h1 : should_generate_summary now [] subs = false := by
    simp [should_generate_summary]
  have h2 : should_generate_summary now members [] = false := by
    simp [should_generate_summary]
  exact ⟨h1, h2, by simp [trigger_reason, h1], by simp [trigger_reason, h2]⟩

/-- C6: the evaluator is total and never raises: the run that keeps the
partiality of Python `min` visible always returns `some` of the boolean
the total evaluator computes, because the empty-submission case returns
early and the minimum is only taken on a non-empty list. -/
theorem evaluator_total :
    ∀ (now : Int) (members : List Member) (subs : List Submission),
      should_generate_summary_run now members subs =
        some (should_generate_summary now members subs) := by
  intro now members subs
  cases subs with
  | nil => simp [should_generate_summary_run, should_generate_summary]
  | cons s rest =>
    by_cases hm : members = [] <;> by_cases hl : members.length ≤ rest.length + 1 <;>
      simp [should_generate_summary_run, should_generate_summary, pyMinBySubmittedAt,
        hm, hl]

/-- C1: on non-empty inputs, when at least as many distinct members have
submitted as there are active members, the evaluator answers true and the
trigger reason computed by `check_and_generate_if_needed` is
`ALL_SUBMITTED`, regardless of the clock and of every timestamp. -/
theorem all_submitted_trigger (now : Int) (members : List Member)
    (subs : List Submission) (hm : members ≠ []) (hs : subs ≠ [])
    (hd : distinctSubmitters subs ≥ members.length) :
    should_generate_summary now members subs = true ∧
    trigger_reason now members subs = .ALL_SUBMITTED := by
  have hdle : distinctSubmitters subs ≤ subs.length := by
    have h := (List.dedup_sublist (subs.map (·.userId))).length_le
    simpa [distinctSubmitters] using h
  have hlen : subs.length ≥ members.length := le_trans hd hdle
  have hgen : should_generate_summary now members subs = true := by
    rw [should_generate_summary_eq]
    simp [hm, hs, hlen]
  exact ⟨hgen, by simp [trigger_reason, hgen, hlen]⟩

/-- Witness for C1: three members and three distinct-member submissions
with assorted timestamps give true / `ALL_SUBMITTED` at clock 0. -/
theorem all_submitted_trigger_witness :
    should_generate_summary 0 rosterA subsA = true ∧
    trigger_reason 0 rosterA subsA = .ALL_SUBMITTED :=
  all_submitted_trigger 0 rosterA subsA (by decide) (by decide) (by decide)

/-- Counterexample to C2 as stated: three members with three recent
submissions all authored by one member have fewer distinct submitters
than members and no timeout, yet the evaluator answers true with reason
`ALL_SUBMITTED` — the code compares raw submission count, not distinct
submitters, so the claimed quantification over "fewer distinct members
than the member count" is wrong. -/
theorem timeout_reason_counterexample :
    distinctSubmitters subsB < rosterA.length ∧
    ¬ ((3600 : Int) > oldestAt subsB + 86400) ∧
    should_generate_summary 3600 rosterA subsB = true ∧
    trigger_reason 3600 rosterA subsB = .ALL_SUBMITTED := by decide

/-- C2 (amended): on non-empty inputs with strictly fewer submissions
than members, the evaluator answers true exactly when the clock exceeds
the earliest submission's timestamp plus 24 hours, in which case the
trigger reason is `TIMEOUT`; otherwise it answers false with reason
`NONE`. -/
theorem timeout_trigger (now : Int) (members : List Member)
    (subs : List Submission) (hm : members ≠ []) (hs : subs ≠ [])
    (hlt : subs.length < members.length) :
    should_generate_summary now members subs =
      decide (now > oldestAt subs + 86400) ∧
    trigger_reason now members subs =
      if now > oldestAt subs + 86400 then .TIMEOUT else .NONE := by
  have hnge : ¬ subs.length ≥ members.length := by omega
  have hgen : should_generate_summary now members subs =
      decide (now > oldestAt subs + 86400) := by
    rw [should_generate_summary_eq]
    simp [hm, hs, hnge]
  refine ⟨hgen, ?_⟩
  by_cases h : now > oldestAt subs + 86400 <;>
    simp [trigger_reason, hgen, h, hnge]

/-- Witness for C2 (amended): three members and two submissions whose
earliest entry is 25 hours old give true / `TIMEOUT`. -/
theorem timeout_trigger_witness :
    should_generate_summary 90000 rosterA subsB2 =
      decide ((90000 : Int) > oldestAt subsB2 + 86400) ∧
    trigger_reason 90000 rosterA subsB2 =
      if (90000 : Int) > oldestAt subsB2 + 86400 then .TIMEOUT else .NONE :=
  timeout_trigger 90000 rosterA subsB2 (by decide) (by decide) (by decide)

/-- Counterexample to C5 as stated: the evaluator reads the real-time
clock, so two invocations with identical member and submission arguments
can disagree — here the same single-submission input yields false one
hour after the submission and true about 28 hours after it. -/
theorem pure_function_counterexample :
    should_generate_summary 3600 rosterC subsC = false ∧
    should_generate_summary 100000 rosterC subsC = true := by decide

/-- C5 (amended): for a fixed clock reading the evaluator is a
deterministic function of its two arguments, and depends on them only
through the member count and the submission timestamps; in particular
identical inputs at the same clock always yield identical outputs. -/
theorem evaluator_deterministic (now : Int) (m₁ m₂ : List Member)
    (s₁ s₂ : List Submission) (hm : m₁.length = m₂.length)
    (hs : s₁.map (·.submittedAt) = s₂.map (·.submittedAt)) :
    should_generate_summary now m₁ s₁ = should_generate_summary now m₂ s₂ := by
  have hlen : s₁.length = s₂.length := by
    have h := congrArg List.length hs
    simpa using h
  have hold : oldestAt s₁ = oldestAt s₂ := by
    rw [oldestAt_eq_intListMin, oldestAt_eq_intListMin, hs]
  rw [should_generate_summary_eq, should_generate_summary_eq, hm, hlen, hold]

/-- Witness for C5 (amended): two rosters of equal size and two
submission lists with the same timestamps — every other field different —
evaluate identically at the same clock. -/
theorem evaluator_deterministic_witness :
    should_generate_summary 0 [⟨"a", "a@x"⟩] [⟨"s", "a", "t", "hello", 5, false, 0, 0⟩] =
    should_generate_summary 0 [⟨"b", "b@y"⟩] [⟨"z", "b", "u", "other", 5, true, 7, 9⟩] :=
  evaluator_deterministic 0 [⟨"a", "a@x"⟩] [⟨"b", "b@y"⟩]
    [⟨"s", "a", "t", "hello", 5, false, 0, 0⟩]
    [⟨"z", "b", "u", "other", 5, true, 7, 9⟩] (by decide) (by decide)

/-- C9: a naive prompt timestamp is normalized to UTC before the lateness
comparison — classifying against it gives the very result of interpreting
its wall clock as UTC — while a timezone-aware prompt is left untouched
and compared as given, on the instant its wall clock and offset denote. -/
theorem naive_prompt_normalized :
    ∀ (nw w o : Int) (tzn : Option Int),
      is_late ⟨nw, tzn⟩ ⟨w, none⟩ = is_late ⟨nw, tzn⟩ ⟨w, some 0⟩ ∧
      normalizeToUTC ⟨w, some o⟩ = ⟨w, some o⟩ ∧
      is_late ⟨nw, tzn⟩ ⟨w, some o⟩ =
        decide (instant ⟨nw, tzn⟩ > (w - o) + 86400) := by
  intro nw w o tzn
  refine ⟨rfl, rfl, ?_⟩
  rw [is_late_eq]
  rfl

/-- C8 fails on the code: for a prompt sent Saturday 1970-01-03 01:00 UTC
(instant 176400), the router stores midnight UTC of the prompt's own
date — a Saturday (weekday 5), not the Monday 1969-12-29 that the
spec-modelled week start computes — and `check_and_generate_if_needed`
filters by midnight UTC of the current date, also not a Monday. -/
theorem week_start_not_monday :
    routerWeekStartDate ⟨176400, some 0⟩ = ⟨172800, some 0⟩ ∧
    weekdayOfDay (dayOf (instant (routerWeekStartDate ⟨176400, some 0⟩))) = 5 ∧
    specWeekStartMonday 0 (instant ⟨176400, some 0⟩) = -259200 ∧
    weekdayOfDay (dayOf (specWeekStartMonday 0 (instant ⟨176400, some 0⟩))) = 0 ∧
    instant (routerWeekStartDate ⟨176400, some 0⟩) ≠
      specWeekStartMonday 0 (instant ⟨176400, some 0⟩) ∧
    instant (serviceWeekStart ⟨176400, some 0⟩) ≠
      specWeekStartMonday 0 (instant ⟨176400, some 0⟩) := by decide

/-- C10: a successful content update maps each stored submission to a
record with the same identifier, author, team, submission timestamp,
lateness flag and week-start-date; submissions other than the target are
untouched, and the target changes only its content and last-update
timestamp. -/
theorem update_submission_frame (store : List Submission)
    (subId requesterId content : String) (now : Int) (store' : List Submission)
    (h : update_submission store subId requesterId content now = .ok store') :
    store'.length = store.length ∧
    ∀ s ∈ store,
      ∃ s' ∈ store', s'.id = s.id ∧ s'.userId = s.userId ∧ s'.teamId = s.teamId ∧
        s'.submittedAt = s.submittedAt ∧ s'.isLate = s.isLate ∧
        s'.weekStartDate = s.weekStartDate ∧
        (s.id ≠ subId → s' = s) ∧
        (s.id = subId → s'.content = content ∧ s'.updatedAt = now) := by
  unfold update_submission at h
  cases hfind : store.find? (fun s => s.id == subId) with
  | none => rw [hfind] at h; simp at h
  | some sub =>
    rw [hfind] at h
    by_cases hown : (sub.userId == requesterId) = true
    · simp only [hown, if_true, Except.ok.injEq] at h
      subst h
      refine ⟨by simp, ?_⟩
      intro s hsmem
      refine ⟨if s.id == subId then { s with content := content, updatedAt := now }
        else s, List.mem_map.mpr ⟨s, hsmem, rfl⟩, ?_⟩
      by_cases hid : s.id = subId
      · have hb : (s.id == subId) = true := by simp [hid]
        simp [hb, hid]
      · have hb : (s.id == subId) = false := by simp [hid]
        simp [hb, hid]
    · simp [hown] at h

/-- Witness for C10: updating the single stored submission's content to
"new" at clock 99 keeps its identifier, author, team, timestamps of
record and lateness flag, changing only content and update time. -/
theorem update_submission_frame_witness :
    ([⟨"s1", "u", "t", "new", 5, true, 7, 99⟩] : List Submission).length =
      [subU].length ∧
    ∀ s ∈ [subU],
      ∃ s' ∈ ([⟨"s1", "u", "t", "new", 5, true, 7, 99⟩] : List Submission),
        s'.id = s.id ∧ s'.userId = s.userId ∧ s'.teamId = s.teamId ∧
        s'.submittedAt = s.submittedAt ∧ s'.isLate = s.isLate ∧
        s'.weekStartDate = s.weekStartDate ∧
        (s.id ≠ "s1" → s' = s) ∧
        (s.id = "s1" → s'.content = "new" ∧ s'.updatedAt = 99) :=
  update_submission_frame [subU] "s1" "u" "new" 99
    [⟨"s1", "u", "t", "new", 5, true, 7, 99⟩] rfl

/-- C7: on a store holding at most one summary per (team, week-start-date)
pair, with database-unique row identifiers and an existing team,
`generate_summary` succeeds and preserves the invariant; when a summary
for the pair already exists the store keeps its size and the matching
record is replaced in place by one with new text, trigger and update
timestamp while every other record survives unchanged, and when none
exists the run appends exactly one freshly created record for the pair. -/
theorem generate_summary_upsert (teams : List String)
    (store : List WeeklySummary) (teamId : String) (s0 : Submission)
    (rest : List Submission) (text : String) (trigger : TriggerType)
    (now : Int) (freshId : Nat)
    (hinv : atMostOnePerPair store)
    (hids : (store.map (·.id)).Nodup)
    (hteam : teams.contains teamId = true) :
    ∃ store',
      generate_summary teams store teamId (s0 :: rest) text trigger now freshId =
        .ok store' ∧
      atMostOnePerPair store' ∧
      store'.length ≤ store.length + 1 ∧
      ((∃ ex ∈ store, pairMatches teamId s0.weekStartDate ex = true) →
        store'.length = store.length ∧
        ∀ w ∈ store,
          (if pairMatches teamId s0.weekStartDate w = true
            then updateSummaryFields text trigger now w else w) ∈ store') ∧
      ((∀ w ∈ store, pairMatches teamId s0.weekStartDate w = false) →
        store' = store ++ [⟨freshId, teamId, s0.weekStartDate, text, trigger, now⟩] ∧
        pairCount store' teamId s0.weekStartDate = 1) := by
  have hmem : teamId ∈ teams := by simpa using hteam
  cases hfind : store.find? (pairMatches teamId s0.weekStartDate) with
  | some ex =>
    have hexmem : ex ∈ store := List.mem_of_find?_eq_some hfind
    have hexp : pairMatches teamId s0.weekStartDate ex = true :=
      List.find?_some hfind
    refine ⟨store.map fun w =>
        if w.id == ex.id then updateSummaryFields text trigger now w else w,
      ?_, ?_, ?_, ?_, ?_⟩
    · simp [generate_summary, hteam, hfind, hmem]
    · intro t wv
      have hcount :
          pairCount (store.map fun w =>
            if w.id == ex.id then updateSummaryFields text trigger now w else w)
            t wv = pairCount store t wv := by
        simp only [pairCount, ← List.countP_eq_length_filter, List.countP_map]
        congr 1
        funext x
        by_cases hx : (x.id == ex.id) = true <;>
          simp [hx, Function.comp, updateSummaryFields, pairMatches]
      rw [hcount]
      exact hinv t wv
    · simp
    · intro _
      refine ⟨by simp, ?_⟩
      intro w hw
      by_cases hpm : pairMatches teamId s0.weekStartDate w = true
      · have hwex : w = ex := by
          have h1 : w ∈ store.filter (pairMatches teamId s0.weekStartDate) :=
            List.mem_filter.mpr ⟨hw, hpm⟩
          have h2 : ex ∈ store.filter (pairMatches teamId s0.weekStartDate) :=
            List.mem_filter.mpr ⟨hexmem, hexp⟩
          exact mem_of_length_le_one (hinv teamId s0.weekStartDate) h1 h2
        rw [if_pos hpm, hwex]
        exact List.mem_map.mpr ⟨ex, hexmem, by simp⟩
      · have hne : w ≠ ex := fun he => hpm (he ▸ hexp)
        have hidne : w.id ≠ ex.id := fun hidp =>
          hne (List.inj_on_of_nodup_map hids hw hexmem hidp)
        rw [if_neg hpm]
        exact List.mem_map.mpr ⟨w, hw, by simp [hidne]⟩
    · intro hall
      exact absurd hexp (by simpa using hall ex hexmem)
  | none =>
    have hnone : ∀ w ∈ store, ¬ pairMatches teamId s0.weekStartDate w = true :=
      List.find?_eq_none.mp hfind
    have hzero : pairCount store teamId s0.weekStartDate = 0 := by
      simp only [pairCount, ← List.countP_eq_length_filter]
      exact List.countP_eq_zero.mpr hnone
    have hnewp : pairMatches teamId s0.weekStartDate
        ⟨freshId, teamId, s0.weekStartDate, text, trigger, now⟩ = true := by
      simp [pairMatches]
    have happ : ∀ t wv, pairCount
        (store ++ [⟨freshId, teamId, s0.weekStartDate, text, trigger, now⟩]) t wv =
        pairCount store t wv +
          pairCount [⟨freshId, teamId, s0.weekStartDate, text, trigger, now⟩] t wv := by
      intro t wv
      simp [pairCount, List.filter_append]
    refine ⟨store ++ [⟨freshId, teamId, s0.weekStartDate, text, trigger, now⟩],
      ?_, ?_, ?_, ?_, ?_⟩
    · simp [generate_summary, hteam, hfind, hmem]
    · intro t wv
      rw [happ t wv]
      by_cases hmatch : pairMatches t wv
          ⟨freshId, teamId, s0.weekStartDate, text, trigger, now⟩ = true
      · have hpair : teamId = t ∧ s0.weekStartDate = wv := by
          simpa [pairMatches] using hmatch
        have hz : pairCount store t wv = 0 := by
          rw [← hpair.1, ← hpair.2]
          exact hzero
        rw [hz]
        simp [pairCount, hmatch]
      · have hz1 : pairCount
            [(⟨freshId, teamId, s0.weekStartDate, text, trigger, now⟩ : WeeklySummary)]
            t wv = 0 := by
          simp [pairCount, hmatch]
        rw [hz1]
        simpa using hinv t wv
    · simp
    · intro hex
      obtain ⟨ex, hexmem, hexp⟩ := hex
      exact absurd hexp (by simpa using hnone ex hexmem)
    · intro _
      refine ⟨rfl, ?_⟩
      rw [happ teamId s0.weekStartDate, hzero]
      simp [pairCount, hnewp]

/-- Witness for C7: generating a summary for team `t1` against an empty
store creates exactly one record for the (team, week-start-date) pair and
keeps the at-most-one invariant. -/
theorem generate_summary_upsert_witness :
    ∃ store',
      generate_summary ["t1"] [] "t1" (subW :: []) "txt" .ALL_SUBMITTED 5 2 =
        .ok store' ∧
      atMostOnePerPair store' ∧
      store'.length ≤ ([] : List WeeklySummary).length + 1 ∧
      ((∃ ex ∈ ([] : List WeeklySummary),
          pairMatches "t1" subW.weekStartDate ex = true) →
        store'.length = ([] : List WeeklySummary).length ∧
        ∀ w ∈ ([] : List WeeklySummary),
          (if pairMatches "t1" subW.weekStartDate w = true
            then updateSummaryFields "txt" .ALL_SUBMITTED 5 w else w) ∈ store') ∧
      ((∀ w ∈ ([] : List WeeklySummary),
          pairMatches "t1" subW.weekStartDate w = false) →
        store' = [] ++ [⟨2, "t1", subW.weekStartDate, "txt", .ALL_SUBMITTED, 5⟩] ∧
        pairCount store' "t1" subW.weekStartDate = 1) :=
  generate_summary_upsert ["t1"] [] "t1" subW [] "txt" .ALL_SUBMITTED 5 2
    (fun t w => by simp [pairCount]) (by simp) (by decide)

end SpeedyStatus
